import Mathlib

/-!
Shallow embedding of src/main.py (IPhoneMTPCopier): the copy strategy engine
(_copy_file_mtp), the incremental folder synchronizer (_process_roll), the ETA
estimator (_calculate_eta, _format_time) and the run orchestrator (copy_photos).

External effects (the Windows shell namespace, the filesystem existence checks,
COM verb invocations, exceptions raised by collaborator calls) are modelled by
explicit environment records that fix, ahead of time, the outcome every external
call would have.  Logging and wall-clock timing are pure side effects with no
influence on control flow or results, and are omitted.  Python floats are
modelled as rationals; the only float arithmetic a claim depends on
(1 * 10 * 2.0 * 1.2) is exact in both semantics.
-/

namespace IPhoneCopier

/-- Environment of one _copy_file_mtp call: the behaviour of every external
call the body can make.  destFolderFound is whether shell.Namespace on the
destination directory returns a non-null folder; copyHereRaises is whether the
CopyHere call raises; primaryMaterializes is the os.path.exists(dest_path)
check after the primary attempt; copyVerbRaises / pasteRaises are whether the
two InvokeVerbEx calls of the fallback raise; fallbackMaterializes is the
os.path.exists(dest_path) check after the fallback. -/
structure CopyEnv where
  destFolderFound : Bool
  copyHereRaises : Bool
  primaryMaterializes : Bool
  copyVerbRaises : Bool
  pasteRaises : Bool
  fallbackMaterializes : Bool
deriving DecidableEq, Repr

/-- Body of _copy_file_mtp (the code inside its try block, src/main.py lines
127-150).  Returns the Python outcome — .ok b for a normal return, .error ()
for a raised exception — paired with whether the fallback block (lines 139-150:
clear clipboard, copy verb, paste verb, re-verify) was entered.  When
dest_folder is falsy the primary branch is skipped and the fallback block runs,
but dest_folder.Self on None raises AttributeError, so that path always raises
(after the clipboard clear and the copy verb). -/
def copyFileMtpBody (env : CopyEnv) : Except Unit Bool × Bool :=
  if env.destFolderFound then
    if env.copyHereRaises then (Except.error (), false)
    else if env.primaryMaterializes then (Except.ok true, false)
    else
      -- fallback block
      if env.copyVerbRaises then (Except.error (), true)
      else if env.pasteRaises then (Except.error (), true)
      else if env.fallbackMaterializes then (Except.ok true, true)
      else (Except.ok false, true)
  else
    -- dest_folder is None: fallback block entered, paste on None raises
    (Except.error (), true)

/-- _copy_file_mtp (src/main.py lines 124-154): the body wrapped in
try/except — any exception is caught, logged and converted to a False return.
Result: (returned boolean, whether the fallback block was entered). -/
def copyFileMtp (env : CopyEnv) : Bool × Bool :=
  match copyFileMtpBody env with
  | (Except.ok b, fb) => (b, fb)
  | (Except.error _, fb) => (false, fb)

/-- Python int() on a rational: truncation toward zero. -/
def pyInt (q : ℚ) : ℤ :=
  if 0 ≤ q then ⌊q⌋ else ⌈q⌉

/-- _format_time (src/main.py lines 199-210).  Python // on floats is floor
division and % has the sign of the divisor, so for the nonnegative divisors 60
and 3600 the inner int() calls are floors. -/
def format_time (seconds : ℚ) : String :=
  if seconds < 60 then
    toString (pyInt seconds) ++ " seconds"
  else if seconds < 3600 then
    let minutes := ⌊seconds / 60⌋
    let secs := ⌊seconds - 60 * (⌊seconds / 60⌋ : ℚ)⌋
    toString minutes ++ " minutes and " ++ toString secs ++ " seconds"
  else
    let hours := ⌊seconds / 3600⌋
    let rem := seconds - 3600 * (⌊seconds / 3600⌋ : ℚ)
    let minutes := ⌊rem / 60⌋
    toString hours ++ " hours and " ++ toString minutes ++ " minutes"

/-- Estimated remaining seconds computed by _calculate_eta on the non-trivial
path (src/main.py lines 218-226): mean of the samples, times files remaining,
times the 1.2 folder-scanning overhead factor. -/
def eta_seconds (copy_times : List ℚ) (rolls_done total_rolls : ℤ)
    (files_per_roll_avg : ℚ) : ℚ :=
  let avg_time_per_file := copy_times.sum / (copy_times.length : ℚ)
  let rolls_remaining := total_rolls - rolls_done
  let estimated_files_remaining := (rolls_remaining : ℚ) * files_per_roll_avg
  estimated_files_remaining * avg_time_per_file * (6 / 5)

/-- _calculate_eta (src/main.py lines 212-229).  copy_times is the sample list
held on the instance; the guard is Python "not self.copy_times or
rolls_done == 0". -/
def calculate_eta (copy_times : List ℚ) (rolls_done total_rolls : ℤ)
    (files_per_roll_avg : ℚ) : String :=
  if copy_times.isEmpty || rolls_done == 0 then "Calculating..."
  else
    format_time (eta_seconds copy_times rolls_done total_rolls files_per_roll_avg)
      ++ " (approx)"

/-- A remote file as the synchronizer sees it: its name, its byte content (used
only to state that pre-existing destination content is never overwritten), and
the behaviour of the external calls its copy attempt would make. -/
structure RemoteFile where
  name : String
  content : String
  env : CopyEnv
deriving DecidableEq, Repr

/-- The destination folder on the local filesystem: an association list from
file name to content.  os.path.exists is a name lookup. -/
abbrev Fs := List (String × String)

/-- os.path.exists on the destination folder: is a file of this name present. -/
def fsExists (fs : Fs) (name : String) : Bool :=
  fs.any (fun p => p.1 == name)

/-- Content of a destination file, if present. -/
def fsGet (fs : Fs) (name : String) : Option String :=
  (fs.find? (fun p => p.1 == name)).map Prod.snd

/-- A successful copy materializes the file in the destination folder.  It is
only ever issued for a name that is absent (the synchronizer skips existing
names without invoking the engine), so prepending never shadows an entry. -/
def fsPut (fs : Fs) (name content : String) : Fs :=
  (name, content) :: fs

/-- Per-file outcome of the synchronizer loop (src/main.py lines 173-186). -/
inductive FileOutcome
  | copied
  | skipped
  | failed
deriving DecidableEq, Repr

/-- One iteration of the _process_roll file loop (src/main.py lines 173-186):
if the destination path exists the file is skipped and the copy engine is not
invoked; otherwise _copy_file_mtp runs and the outcome is copied or failed.
Returns the destination folder after the iteration, the outcome, and whether
the copy strategy engine (_copy_file_mtp) was invoked. -/
def processFile (fs : Fs) (f : RemoteFile) : Fs × FileOutcome × Bool :=
  if fsExists fs f.name then
    (fs, FileOutcome.skipped, false)
  else if (copyFileMtp f.env).1 then
    (fsPut fs f.name f.content, FileOutcome.copied, true)
  else
    (fs, FileOutcome.failed, true)

/-- The whole _process_roll file loop (src/main.py lines 169-186): runs
processFile over the listing in order, returning the final destination folder
and the counters (files_copied, files_skipped, files_failed). -/
def processFiles (fs : Fs) : List RemoteFile → Fs × Nat × Nat × Nat
  | [] => (fs, 0, 0, 0)
  | f :: rest =>
    let step := processFile fs f
    let tail := processFiles step.1 rest
    match step.2.1 with
    | FileOutcome.copied => (tail.1, tail.2.1 + 1, tail.2.2.1, tail.2.2.2)
    | FileOutcome.skipped => (tail.1, tail.2.1, tail.2.2.1 + 1, tail.2.2.2)
    | FileOutcome.failed => (tail.1, tail.2.1, tail.2.2.1, tail.2.2.2 + 1)

/-- Final classification of _process_roll (src/main.py lines 189-197), from
the three counters and the listing length (source_count). -/
def rollStatus (files_copied files_skipped files_failed source_count : Nat) :
    String :=
  if files_failed > 0 then "errore"
  else if files_copied = 0 ∧ files_skipped = source_count then "saltata"
  else "completata"

/-- _process_roll (src/main.py lines 156-197) restricted to what it returns and
to the destination folder it leaves behind: directory creation and logging are
side effects with no influence on the outcome. -/
def process_roll (fs : Fs) (files : List RemoteFile) : Fs × String :=
  let run := processFiles fs files
  (run.1, rollStatus run.2.1 run.2.2.1 run.2.2.2 files.length)

/-- An item enumerated from the shell namespace: a name and a folder/file kind.
Used for the device scan (CSIDL_DRIVES items) and for folder listings. -/
structure ShellItem where
  name : String
  isFolder : Bool
deriving DecidableEq, Repr

/-- An item inside a roll folder, as roll.GetFolder.Items() yields it; files
additionally carry content and a copy behaviour. -/
structure RollItem where
  name : String
  isFolder : Bool
  content : String
  env : CopyEnv
deriving DecidableEq, Repr

/-- Is the second character list a contiguous prefix of the first argument
list.  Helper for the Python substring test. -/
def chPre : List Char → List Char → Bool
  | [], _ => true
  | _ :: _, [] => false
  | a :: as, b :: bs => a == b && chPre as bs

/-- Does the haystack contain the needle as a contiguous substring (Python
"needle in haystack" on strings). -/
def chSub (needle : List Char) : List Char → Bool
  | [] => needle.isEmpty
  | c :: rest => chPre needle (c :: rest) || chSub needle rest

/-- Python "needle in haystack" on strings. -/
def strIn (needle haystack : String) : Bool :=
  chSub needle.toList haystack.toList

/-- Python str.lower on one character, for the ASCII range (every name the
code lowercases is compared against plain ASCII words). -/
def pyLowerChar (c : Char) : Char :=
  if 65 ≤ c.toNat ∧ c.toNat ≤ 90 then Char.ofNat (c.toNat + 32) else c

/-- Python str.lower restricted to ASCII case mapping. -/
def pyLower (s : String) : String :=
  ⟨s.data.map pyLowerChar⟩

/-- _find_iphone (src/main.py lines 95-103): first CSIDL_DRIVES item whose
lowercased name contains "iphone" or "apple". -/
def find_iphone (computerItems : List ShellItem) : Option ShellItem :=
  computerItems.find? fun item =>
    strIn "iphone" (pyLower item.name) || strIn "apple" (pyLower item.name)

/-- _find_folder (src/main.py lines 105-112): first folder-kind child whose
name matches the target case-insensitively. -/
def find_folder (children : List ShellItem) (target : String) :
    Option ShellItem :=
  children.find? fun sub =>
    sub.isFolder && pyLower sub.name == pyLower target

/-- RunResult accumulator (CopyResult in src/main.py lines 17-25), restricted
to the fields the run logic writes: the three name buckets and the total file
count.  tempo_totale and velocita_media are wall-clock statistics with no
influence on any claim and are omitted. -/
structure CopyResult where
  completate : List String
  saltate : List String
  errori : List String
  file_copiati : Nat
deriving DecidableEq, Repr

/-- Environment of one copy_photos run: the outcome of every external call.
computerItems are the CSIDL_DRIVES entries; deviceChildren the children of the
device item found; internalChildren the children of its Internal Storage
folder; itemsOf the listing of each roll folder by name; destFs the initial
contents of the destination subfolder of each roll; raisesOn whether
enumerating/processing that roll raises a critical error (modelled as raised at
enumeration, before any file of the roll is copied). -/
structure DeviceEnv where
  computerItems : List ShellItem
  deviceChildren : List ShellItem
  internalChildren : List ShellItem
  itemsOf : String → List RollItem
  destFs : String → Fs
  raisesOn : String → Bool

/-- roll_files (src/main.py line 267): the file-kind children of a roll. -/
def rollFilesOf (env : DeviceEnv) (rollName : String) : List RemoteFile :=
  ((env.itemsOf rollName).filter (fun i => !i.isFolder)).map
    (fun i => ⟨i.name, i.content, i.env⟩)

/-- The per-roll loop of copy_photos (src/main.py lines 261-291): for each roll
in order, process it and append its name into the bucket matching the returned
status; a critical exception sends the name to errori; files_copied_total
grows by the number of files the roll copied. -/
def copyPhotosLoop (env : DeviceEnv) : List ShellItem → CopyResult → CopyResult
  | [], acc => acc
  | roll :: rest, acc =>
    let next :=
      if env.raisesOn roll.name then
        { acc with errori := acc.errori ++ [roll.name] }
      else
        let files := rollFilesOf env roll.name
        let run := processFiles (env.destFs roll.name) files
        let status := rollStatus run.2.1 run.2.2.1 run.2.2.2 files.length
        let acc2 := { acc with file_copiati := acc.file_copiati + run.2.1 }
        if status = "completata" then
          { acc2 with completate := acc2.completate ++ [roll.name] }
        else if status = "saltata" then
          { acc2 with saltate := acc2.saltate ++ [roll.name] }
        else if status = "errore" then
          { acc2 with errori := acc2.errori ++ [roll.name] }
        else acc2
    copyPhotosLoop env rest next

/-- The sorted roll list (src/main.py lines 248-251): folder-kind children of
Internal Storage, sorted ascending by name. -/
def rollsOf (env : DeviceEnv) : List ShellItem :=
  (env.internalChildren.filter (fun i => i.isFolder)).mergeSort
    (fun a b => decide (a.name ≤ b.name))

/-- copy_photos (src/main.py lines 231-310): if the device or its Internal
Storage folder is absent, an empty CopyResult is returned at once; otherwise
every sorted roll is processed by the loop.  The ETA log line and the final
statistics are logging only. -/
def copy_photos (env : DeviceEnv) : CopyResult :=
  match find_iphone env.computerItems with
  | none => ⟨[], [], [], 0⟩
  | some _ =>
    match find_folder env.deviceChildren "Internal Storage" with
    | none => ⟨[], [], [], 0⟩
    | some _ => copyPhotosLoop env (rollsOf env) ⟨[], [], [], 0⟩

/-- Floor of a rational divided by a positive integer is the integer division
of its floor: the fact behind formatting by truncation at unit boundaries. -/
theorem floor_div_pos_int (s : ℚ) (n : ℤ) (hn : 0 < n) :
    ⌊s / (n : ℚ)⌋ = ⌊s⌋ / n := by
  have hn0 : (0 : ℚ) < (n : ℚ) := by exact_mod_cast hn
  have hle : ((⌊s⌋ / n : ℤ) : ℚ) ≤ s / (n : ℚ) := by
    rw [le_div_iff₀ hn0]
    have hdm : ⌊s⌋ / n * n ≤ ⌊s⌋ := Int.ediv_mul_le ⌊s⌋ hn.ne'
    have hcast : ((⌊s⌋ / n * n : ℤ) : ℚ) ≤ ((⌊s⌋ : ℤ) : ℚ) := by exact_mod_cast hdm
    calc ((⌊s⌋ / n : ℤ) : ℚ) * (n : ℚ) = ((⌊s⌋ / n * n : ℤ) : ℚ) := by push_cast; ring
      _ ≤ ((⌊s⌋ : ℤ) : ℚ) := hcast
      _ ≤ s := Int.floor_le s
  have hlt : s / (n : ℚ) < ((⌊s⌋ / n : ℤ) : ℚ) + 1 := by
    rw [div_lt_iff₀ hn0]
    have h2 : ⌊s⌋ < (⌊s⌋ / n + 1) * n := Int.lt_ediv_add_one_mul_self ⌊s⌋ hn
    have h3 : ((⌊s⌋ : ℤ) : ℚ) + 1 ≤ (((⌊s⌋ / n + 1) * n : ℤ) : ℚ) := by exact_mod_cast h2
    calc s < (⌊s⌋ : ℚ) + 1 := Int.lt_floor_add_one s
      _ ≤ (((⌊s⌋ / n + 1) * n : ℤ) : ℚ) := h3
      _ = (((⌊s⌋ / n : ℤ) : ℚ) + 1) * (n : ℚ) := by push_cast; ring
  rw [Int.floor_eq_iff]
  exact ⟨hle, hlt⟩

/-- Claim C6: _format_time renders a duration by truncation at each unit
boundary — below 60 as the truncated second count, below 3600 as truncated
minutes with the truncated remainder seconds, from 3600 up as truncated hours
with truncated remainder minutes — and in particular 59, 60, 3599 and 3600
render as the four boundary strings the claim lists. -/
theorem format_time_truncation (s : ℚ) (h : 0 ≤ s) :
    (s < 60 → format_time s = toString ⌊s⌋ ++ " seconds") ∧
    (60 ≤ s → s < 3600 → format_time s =
      toString (⌊s⌋ / 60) ++ " minutes and " ++ toString (⌊s⌋ % 60) ++ " seconds") ∧
    (3600 ≤ s → format_time s =
      toString (⌊s⌋ / 3600) ++ " hours and " ++
        toString (⌊s⌋ % 3600 / 60) ++ " minutes") ∧
    format_time 59 = "59 seconds" ∧
    format_time 60 = "1 minutes and 0 seconds" ∧
    format_time 3599 = "59 minutes and 59 seconds" ∧
    format_time 3600 = "1 hours and 0 minutes" := by
  refine ⟨?_, ?_, ?_, ?_, ?_, ?_, ?_⟩
  · intro h60
    unfold format_time pyInt
    rw [if_pos h60, if_pos h]
  · intro h60 h3600
    unfold format_time
    rw [if_neg (not_lt.mpr h60), if_pos h3600]
    have hq : ⌊s / (60 : ℚ)⌋ = ⌊s⌋ / 60 := by
      have := floor_div_pos_int s 60 (by norm_num)
      simpa using this
    have hsub : ⌊s - 60 * ((⌊s⌋ / 60 : ℤ) : ℚ)⌋ = ⌊s⌋ % 60 := by
      have hc : (60 : ℚ) * ((⌊s⌋ / 60 : ℤ) : ℚ) = ((60 * (⌊s⌋ / 60) : ℤ) : ℚ) := by
        push_cast; ring
      rw [hc, Int.floor_sub_int]
      omega
    rw [hq, hsub]
  · intro h3600
    unfold format_time
    rw [if_neg (by linarith), if_neg (not_lt.mpr h3600)]
    have hq : ⌊s / (3600 : ℚ)⌋ = ⌊s⌋ / 3600 := by
      have := floor_div_pos_int s 3600 (by norm_num)
      simpa using this
    have hrem : ⌊(s - 3600 * ((⌊s⌋ / 3600 : ℤ) : ℚ)) / (60 : ℚ)⌋ = ⌊s⌋ % 3600 / 60 := by
      have hfd := floor_div_pos_int (s - 3600 * ((⌊s⌋ / 3600 : ℤ) : ℚ)) 60 (by norm_num)
      have hc : (3600 : ℚ) * ((⌊s⌋ / 3600 : ℤ) : ℚ) = ((3600 * (⌊s⌋ / 3600) : ℤ) : ℚ) := by
        push_cast; ring
      have hfs : ⌊s - 3600 * ((⌊s⌋ / 3600 : ℤ) : ℚ)⌋ = ⌊s⌋ - 3600 * (⌊s⌋ / 3600) := by
        rw [hc, Int.floor_sub_int]
      have : ⌊s⌋ - 3600 * (⌊s⌋ / 3600) = ⌊s⌋ % 3600 := by omega
      simpa [hfs, this] using hfd
    show toString ⌊s / (3600 : ℚ)⌋ ++ " hours and " ++
        toString ⌊(s - 3600 * ((⌊s / (3600 : ℚ)⌋ : ℤ) : ℚ)) / (60 : ℚ)⌋ ++ " minutes" =
      toString (⌊s⌋ / 3600) ++ " hours and " ++ toString (⌊s⌋ % 3600 / 60) ++ " minutes"
    rw [hq, hrem]
  · unfold format_time pyInt
    norm_num
    decide
  · unfold format_time
    norm_num
    decide
  · unfold format_time
    norm_num
    decide
  · unfold format_time
    norm_num
    decide

/-- Witness for format_time_truncation at the four boundary inputs. -/
theorem format_time_truncation_witness :
    format_time 59 = "59 seconds" ∧
    format_time 60 = "1 minutes and 0 seconds" ∧
    format_time 3599 = "59 minutes and 59 seconds" ∧
    format_time 3600 = "1 hours and 0 minutes" :=
  (format_time_truncation 59 (by norm_num)).2.2.2

/-- Claim C2: _calculate_eta returns the not-yet-available indicator whenever
the sample list is empty or rolls_done is zero, whatever the other inputs; and
with one recorded sample of 2.0 seconds, 10 average files per folder, 1 of 2
folders done, the estimated seconds are 1 * 10 * 2.0 * 1.2 = 24, formatted as
the string 24 seconds (the code appends its approx marker to it). -/
theorem calculate_eta_spec (copy_times : List ℚ) (rolls_done total_rolls : ℤ)
    (files_per_roll_avg : ℚ) (h : copy_times = [] ∨ rolls_done = 0) :
    calculate_eta copy_times rolls_done total_rolls files_per_roll_avg =
      "Calculating..." ∧
    eta_seconds [2] 1 2 10 = 24 ∧
    format_time 24 = "24 seconds" ∧
    calculate_eta [2] 1 2 10 = "24 seconds (approx)" := by
  have h24 : eta_seconds [2] 1 2 10 = 24 := by norm_num [eta_seconds]
  have hfmt : format_time 24 = "24 seconds" := by
    unfold format_time pyInt
    norm_num
    decide
  refine ⟨?_, h24, hfmt, ?_⟩
  · unfold calculate_eta
    rcases h with h | h
    · subst h; rfl
    · subst h; simp
  · unfold calculate_eta
    rw [h24] at *
    simp [h24, hfmt]

/-- Witness for calculate_eta_spec: empty samples at one concrete input,
together with the concrete single-sample computation. -/
theorem calculate_eta_spec_witness :
    calculate_eta [] 0 5 3 = "Calculating..." ∧
    eta_seconds [2] 1 2 10 = 24 ∧
    format_time 24 = "24 seconds" ∧
    calculate_eta [2] 1 2 10 = "24 seconds (approx)" :=
  calculate_eta_spec [] 0 5 3 (Or.inl rfl)

/-- Claim C5: any exception raised inside _copy_file_mtp, from the primary or
the fallback strategy, is caught by its try/except and converted into a false
return, never propagated: whenever the body raises, the caller sees the plain
value false. -/
theorem copyFileMtp_catches_exceptions (env : CopyEnv)
    (h : (copyFileMtpBody env).1 = Except.error ()) :
    copyFileMtp env = (false, (copyFileMtpBody env).2) := by
  unfold copyFileMtp
  rcases hb : copyFileMtpBody env with ⟨e, fb⟩
  rw [hb] at h
  cases e with
  | ok b => simp at h
  | error u => rfl

/-- Witness for copyFileMtp_catches_exceptions: the primary CopyHere call
raising is caught and returned as false. -/
theorem copyFileMtp_catches_exceptions_witness :
    copyFileMtp ⟨true, true, false, false, false, false⟩ = (false, false) :=
  copyFileMtp_catches_exceptions ⟨true, true, false, false, false, false⟩ rfl

/-- Claim C1 as stated is false on the code: a file whose primary copy attempt
raises takes the except branch of _copy_file_mtp, which returns false without
ever entering the clipboard fallback block, so the fallback is invoked zero
times, not exactly once. -/
theorem copyFileMtp_fallback_claim_false :
    ¬ (∀ env : CopyEnv,
        ((env.destFolderFound = true ∧ env.copyHereRaises = true) ∨
          env.primaryMaterializes = false) →
        (copyFileMtp env).1 = false → (copyFileMtp env).2 = true) := by
  intro hclaim
  have h := hclaim ⟨true, true, false, false, false, false⟩ (Or.inl ⟨rfl, rfl⟩) rfl
  exact absurd h (by decide)

/-- Claim C1 amended: the fallback block (clear clipboard, copy verb, paste
verb, re-verify) is entered exactly once whenever the primary path ran without
raising and did not materialize the destination, and also when the destination
folder handle is null; but when the primary CopyHere call raises, the exception
is caught and failure is returned without the fallback ever being entered. -/
theorem copyFileMtp_fallback_once (env : CopyEnv) :
    ((env.destFolderFound = false ∨
        (env.copyHereRaises = false ∧ env.primaryMaterializes = false)) →
      (copyFileMtp env).2 = true) ∧
    ((env.destFolderFound = true ∧ env.copyHereRaises = true) →
      (copyFileMtp env).2 = false ∧ (copyFileMtp env).1 = false) := by
  rcases env with ⟨df, chr, pm, cvr, pr, fm⟩
  cases df <;> cases chr <;> cases pm <;> cases cvr <;> cases pr <;> cases fm <;> decide

/-- Witness for copyFileMtp_fallback_once: one file where the primary attempt
simply fails to materialize (fallback entered), one where it raises (fallback
skipped, failure returned). -/
theorem copyFileMtp_fallback_once_witness :
    (copyFileMtp ⟨true, false, false, false, false, false⟩).2 = true ∧
    (copyFileMtp ⟨true, true, false, false, false, false⟩).2 = false ∧
    (copyFileMtp ⟨true, true, false, false, false, false⟩).1 = false :=
  ⟨(copyFileMtp_fallback_once ⟨true, false, false, false, false, false⟩).1
      (Or.inr ⟨rfl, rfl⟩),
   ((copyFileMtp_fallback_once ⟨true, true, false, false, false, false⟩).2
      ⟨rfl, rfl⟩).1,
   ((copyFileMtp_fallback_once ⟨true, true, false, false, false, false⟩).2
      ⟨rfl, rfl⟩).2⟩

/-- Claim C3: the folder classification of _process_roll is deterministic in
the final counters with the stated precedence — any failure gives the
completed-with-errors status (errore), else zero copied with everything skipped
gives the already-complete status (saltata), else the completed status
(completata). -/
theorem process_roll_classification (fs : Fs) (files : List RemoteFile) :
    ((processFiles fs files).2.2.2 > 0 → (process_roll fs files).2 = "errore") ∧
    ((processFiles fs files).2.2.2 = 0 → (processFiles fs files).2.1 = 0 →
      (processFiles fs files).2.2.1 = files.length →
      (process_roll fs files).2 = "saltata") ∧
    ((processFiles fs files).2.2.2 = 0 →
      ¬((processFiles fs files).2.1 = 0 ∧
        (processFiles fs files).2.2.1 = files.length) →
      (process_roll fs files).2 = "completata") := by
  have hpr : (process_roll fs files).2 =
      rollStatus (processFiles fs files).2.1 (processFiles fs files).2.2.1
        (processFiles fs files).2.2.2 files.length := rfl
  refine ⟨?_, ?_, ?_⟩
  · intro hfail
    rw [hpr]
    unfold rollStatus
    rw [if_pos hfail]
  · intro hf hc hs
    rw [hpr]
    unfold rollStatus
    rw [if_neg (by omega), if_pos ⟨hc, hs⟩]
  · intro hf hcs
    rw [hpr]
    unfold rollStatus
    rw [if_neg (by omega), if_neg hcs]

/-- Witness for process_roll_classification: a folder whose single file fails,
one whose single file is pre-existing, one whose single file is copied. -/
theorem process_roll_classification_witness :
    (process_roll [] [⟨"a.jpg", "x", ⟨true, false, false, false, false, false⟩⟩]).2
      = "errore" ∧
    (process_roll [("a.jpg", "x")]
      [⟨"a.jpg", "x", ⟨true, false, true, false, false, false⟩⟩]).2 = "saltata" ∧
    (process_roll [] [⟨"a.jpg", "x", ⟨true, false, true, false, false, false⟩⟩]).2
      = "completata" :=
  ⟨(process_roll_classification [] _).1 (by decide),
   (process_roll_classification [("a.jpg", "x")] _).2.1 (by decide) (by decide)
      (by decide),
   (process_roll_classification [] _).2.2 (by decide) (by decide)⟩

/-- Claim C4: a file is classified skipped exactly when a destination file of
the same name already exists at the time of the check; in that case the copy
strategy engine is not invoked and the destination folder is left untouched
(the pre-existing file is never overwritten); and the decision depends on the
destination only through the existence of that name — no size or content
comparison (existence-only matching). -/
theorem processFile_skip_iff (fs : Fs) (f : RemoteFile) :
    ((processFile fs f).2.1 = FileOutcome.skipped ↔ fsExists fs f.name = true) ∧
    (fsExists fs f.name = true →
      (processFile fs f).2.2 = false ∧ (processFile fs f).1 = fs) ∧
    (∀ fs2 : Fs, fsExists fs2 f.name = fsExists fs f.name →
      (processFile fs2 f).2.1 = (processFile fs f).2.1) := by
  refine ⟨?_, ?_, ?_⟩
  · unfold processFile
    by_cases hx : fsExists fs f.name
    · simp [hx]
    · simp only [Bool.not_eq_true] at hx
      simp only [hx, Bool.false_eq_true, if_false]
      by_cases hc : (copyFileMtp f.env).1 <;> simp [hc]
  · intro hx
    unfold processFile
    simp [hx]
  · intro fs2 hsame
    unfold processFile
    rw [hsame]
    by_cases hx : fsExists fs f.name
    · simp [hx]
    · simp only [Bool.not_eq_true] at hx
      by_cases hc : (copyFileMtp f.env).1 <;> simp [hx, hc]

/-- Witness for processFile_skip_iff at a pre-existing destination file. -/
theorem processFile_skip_iff_witness :
    (processFile [("a.jpg", "old")]
        ⟨"a.jpg", "new", ⟨true, false, true, false, false, false⟩⟩).2.2 = false ∧
    (processFile [("a.jpg", "old")]
        ⟨"a.jpg", "new", ⟨true, false, true, false, false, false⟩⟩).1
      = [("a.jpg", "old")] :=
  (processFile_skip_iff [("a.jpg", "old")]
      ⟨"a.jpg", "new", ⟨true, false, true, false, false, false⟩⟩).2.1 (by decide)

/-- Claim C9: the per-file outcomes of one folder partition its listing — the
copied, skipped and failed counters always sum to the number of files. -/
theorem processFiles_partition (fs : Fs) (files : List RemoteFile) :
    (processFiles fs files).2.1 + (processFiles fs files).2.2.1 +
      (processFiles fs files).2.2.2 = files.length := by
  induction files generalizing fs with
  | nil => rfl
  | cons f rest ih =>
    have h := ih (processFile fs f).1
    rcases hcase : (processFile fs f).2.1 <;>
      simp [processFiles, hcase, List.length_cons] <;> omega

/-- Claim C10: a folder whose file listing is empty is classified saltata (the
already-complete bucket): all three counters are zero, so the zero-copied
all-skipped branch of the classification fires vacuously. -/
theorem process_roll_empty (fs : Fs) :
    processFiles fs [] = (fs, 0, 0, 0) ∧ (process_roll fs []).2 = "saltata" :=
  ⟨rfl, rfl⟩

/-- Existence after a copy: the new name, or anything already present. -/
theorem fsExists_fsPut (fs : Fs) (m c n : String) :
    fsExists (fsPut fs m c) n = ((m == n) || fsExists fs n) := by
  simp [fsExists, fsPut]

/-- Files present in the destination stay present through one file step. -/
theorem processFile_mono (fs : Fs) (f : RemoteFile) (n : String)
    (h : fsExists fs n = true) : fsExists (processFile fs f).1 n = true := by
  by_cases hx : fsExists fs f.name
  · simpa [processFile, hx] using h
  · simp only [Bool.not_eq_true] at hx
    by_cases hc : (copyFileMtp f.env).1
    · have hstep : (processFile fs f).1 = fsPut fs f.name f.content := by
        simp [processFile, hx, hc]
      rw [hstep, fsExists_fsPut, h, Bool.or_true]
    · simpa [processFile, hx, hc] using h

/-- The destination folder the loop leaves after a cons is the one the tail
leaves after the head step. -/
theorem processFiles_cons_fs (fs : Fs) (g : RemoteFile) (rest : List RemoteFile) :
    (processFiles fs (g :: rest)).1 = (processFiles (processFile fs g).1 rest).1 := by
  rcases hcase : (processFile fs g).2.1 <;> simp [processFiles, hcase]

/-- The failed counter over a cons: the tail count, plus one when the head
step failed. -/
theorem processFiles_cons_failed (fs : Fs) (g : RemoteFile)
    (rest : List RemoteFile) :
    (processFiles fs (g :: rest)).2.2.2 =
      (processFiles (processFile fs g).1 rest).2.2.2 +
        (if (processFile fs g).2.1 = FileOutcome.failed then 1 else 0) := by
  rcases hcase : (processFile fs g).2.1 <;> simp [processFiles, hcase]

/-- Files present in the destination stay present through the whole loop. -/
theorem processFiles_mono (fs : Fs) (files : List RemoteFile) (n : String)
    (h : fsExists fs n = true) : fsExists (processFiles fs files).1 n = true := by
  induction files generalizing fs with
  | nil => exact h
  | cons f rest ih =>
    rw [processFiles_cons_fs]
    exact ih (processFile fs f).1 (processFile_mono fs f n h)

/-- A file whose step did not fail exists in the destination right after its
own step: it was either skipped (already present) or copied (materialized). -/
theorem processFile_not_failed_exists (fs : Fs) (f : RemoteFile)
    (h : (processFile fs f).2.1 ≠ FileOutcome.failed) :
    fsExists (processFile fs f).1 f.name = true := by
  by_cases hx : fsExists fs f.name
  · simp [processFile, hx]
  · simp only [Bool.not_eq_true] at hx
    by_cases hc : (copyFileMtp f.env).1
    · have hstep : (processFile fs f).1 = fsPut fs f.name f.content := by
        simp [processFile, hx, hc]
      rw [hstep, fsExists_fsPut]
      simp
    · exfalso
      exact h (by simp [processFile, hx, hc])

/-- After a run with zero failures, every file of the listing exists in the
destination folder the run leaves behind. -/
theorem processFiles_no_fail_all_exist (fs : Fs) (files : List RemoteFile)
    (h : (processFiles fs files).2.2.2 = 0) :
    ∀ f ∈ files, fsExists (processFiles fs files).1 f.name = true := by
  induction files generalizing fs with
  | nil => intro f hf; cases hf
  | cons g rest ih =>
    intro f hf
    have hnf : (processFile fs g).2.1 ≠ FileOutcome.failed := by
      intro hfail
      rw [processFiles_cons_failed fs g rest, if_pos hfail] at h
      omega
    have htail : (processFiles (processFile fs g).1 rest).2.2.2 = 0 := by
      rw [processFiles_cons_failed fs g rest, if_neg hnf] at h
      omega
    rw [processFiles_cons_fs]
    rcases List.mem_cons.mp hf with hmem | hmem
    · subst hmem
      exact processFiles_mono _ rest f.name (processFile_not_failed_exists fs f hnf)
    · exact ih (processFile fs g).1 htail f hmem

/-- A run over a destination that already holds every listed file copies
nothing, skips everything, fails nothing and leaves the destination as is. -/
theorem processFiles_all_exist_skip (fs : Fs) (files : List RemoteFile)
    (h : ∀ f ∈ files, fsExists fs f.name = true) :
    processFiles fs files = (fs, 0, files.length, 0) := by
  induction files with
  | nil => rfl
  | cons g rest ih =>
    have hg : fsExists fs g.name = true := h g (List.mem_cons_self g rest)
    have hstep : processFile fs g = (fs, FileOutcome.skipped, false) := by
      simp [processFile, hg]
    have htail : processFiles fs rest = (fs, 0, rest.length, 0) :=
      ih fun f hf => h f (List.mem_cons_of_mem g hf)
    simp [processFiles, hstep, htail]

/-- Claim C8: synchronizing a folder is idempotent — a second run of the
_process_roll loop against the unchanged listing, on the destination left by a
first run that had no failures, copies zero files, skips the whole listing,
fails nothing, and the folder is classified saltata (already complete). -/
theorem process_roll_idempotent (fs : Fs) (files : List RemoteFile)
    (h : (processFiles fs files).2.2.2 = 0) :
    processFiles (processFiles fs files).1 files =
      ((processFiles fs files).1, 0, files.length, 0) ∧
    (process_roll (processFiles fs files).1 files).2 = "saltata" := by
  have hall : ∀ f ∈ files, fsExists (processFiles fs files).1 f.name = true :=
    processFiles_no_fail_all_exist fs files h
  have hskip := processFiles_all_exist_skip (processFiles fs files).1 files hall
  refine ⟨hskip, ?_⟩
  have hpr : (process_roll (processFiles fs files).1 files).2 =
      rollStatus (processFiles (processFiles fs files).1 files).2.1
        (processFiles (processFiles fs files).1 files).2.2.1
        (processFiles (processFiles fs files).1 files).2.2.2 files.length := rfl
  rw [hpr, hskip]
  unfold rollStatus
  rw [if_neg (by simp), if_pos ⟨rfl, rfl⟩]

/-- Witness for process_roll_idempotent: a first run that copies one file and
skips one pre-existing file, then a second run that skips both. -/
theorem process_roll_idempotent_witness :
    processFiles
        (processFiles [("a.jpg", "x")]
          [⟨"a.jpg", "x", ⟨true, false, true, false, false, false⟩⟩,
           ⟨"b.jpg", "y", ⟨true, false, true, false, false, false⟩⟩]).1
        [⟨"a.jpg", "x", ⟨true, false, true, false, false, false⟩⟩,
         ⟨"b.jpg", "y", ⟨true, false, true, false, false, false⟩⟩] =
      ((processFiles [("a.jpg", "x")]
          [⟨"a.jpg", "x", ⟨true, false, true, false, false, false⟩⟩,
           ⟨"b.jpg", "y", ⟨true, false, true, false, false, false⟩⟩]).1, 0, 2, 0) ∧
    (process_roll
        (processFiles [("a.jpg", "x")]
          [⟨"a.jpg", "x", ⟨true, false, true, false, false, false⟩⟩,
           ⟨"b.jpg", "y", ⟨true, false, true, false, false, false⟩⟩]).1
        [⟨"a.jpg", "x", ⟨true, false, true, false, false, false⟩⟩,
         ⟨"b.jpg", "y", ⟨true, false, true, false, false, false⟩⟩]).2 = "saltata" :=
  process_roll_idempotent [("a.jpg", "x")]
    [⟨"a.jpg", "x", ⟨true, false, true, false, false, false⟩⟩,
     ⟨"b.jpg", "y", ⟨true, false, true, false, false, false⟩⟩] (by decide)

/-- The classification always returns one of the three status strings. -/
theorem rollStatus_cases (c s k n : Nat) :
    rollStatus c s k n = "errore" ∨ rollStatus c s k n = "saltata" ∨
      rollStatus c s k n = "completata" := by
  unfold rollStatus
  split
  · exact Or.inl rfl
  · split
    · exact Or.inr (Or.inl rfl)
    · exact Or.inr (Or.inr rfl)

/-- Every roll the loop visits lands in exactly one of the three buckets: the
bucket sizes grow by exactly the number of rolls visited. -/
theorem copyPhotosLoop_buckets (env : DeviceEnv) (rolls : List ShellItem)
    (acc : CopyResult) :
    (copyPhotosLoop env rolls acc).completate.length +
      (copyPhotosLoop env rolls acc).saltate.length +
      (copyPhotosLoop env rolls acc).errori.length =
      acc.completate.length + acc.saltate.length + acc.errori.length +
        rolls.length := by
  induction rolls generalizing acc with
  | nil => rfl
  | cons roll rest ih =>
    simp only [copyPhotosLoop]
    rw [ih]
    by_cases hr : env.raisesOn roll.name
    · simp [hr, List.length_append]
      omega
    · simp only [hr, Bool.false_eq_true, if_false]
      split_ifs with h1 h2 h3 <;> simp [List.length_append] <;> try omega
      exfalso
      rcases rollStatus_cases
          (processFiles (env.destFs roll.name) (rollFilesOf env roll.name)).2.1
          (processFiles (env.destFs roll.name) (rollFilesOf env roll.name)).2.2.1
          (processFiles (env.destFs roll.name) (rollFilesOf env roll.name)).2.2.2
          (rollFilesOf env roll.name).length with h | h | h
      · exact h3 h
      · exact h2 h
      · exact h1 h

/-- Claim C7: if the device is not found, or its Internal Storage folder is
not found, copy_photos returns the empty result (all three buckets empty, zero
files copied) without processing any folder; and this startup absence is the
only terminating condition — when both are found, every sorted roll folder is
processed into exactly one bucket. -/
theorem copy_photos_startup_absence (env : DeviceEnv) :
    ((find_iphone env.computerItems = none ∨
        find_folder env.deviceChildren "Internal Storage" = none) →
      copy_photos env = ⟨[], [], [], 0⟩) ∧
    (find_iphone env.computerItems ≠ none →
      find_folder env.deviceChildren "Internal Storage" ≠ none →
      (copy_photos env).completate.length + (copy_photos env).saltate.length +
        (copy_photos env).errori.length = (rollsOf env).length) := by
  constructor
  · intro h
    unfold copy_photos
    rcases hf : find_iphone env.computerItems with _ | dev
    · rfl
    · rcases hs : find_folder env.deviceChildren "Internal Storage" with _ | st
      · rfl
      · exfalso
        rcases h with h | h
        · rw [hf] at h; exact Option.noConfusion h
        · rw [hs] at h; exact Option.noConfusion h
  · intro h1 h2
    unfold copy_photos
    rcases hf : find_iphone env.computerItems with _ | dev
    · exact absurd hf h1
    · rcases hs : find_folder env.deviceChildren "Internal Storage" with _ | st
      · exact absurd hs h2
      · simpa using copyPhotosLoop_buckets env (rollsOf env) ⟨[], [], [], 0⟩

/-- Witness for copy_photos_startup_absence: no drive item matches the device
scan, so the run returns the empty result; and a world with a device, its
storage folder and one roll processes exactly that roll. -/
theorem copy_photos_startup_absence_witness :
    copy_photos ⟨[], [], [], fun _ => [], fun _ => [], fun _ => false⟩ =
      ⟨[], [], [], 0⟩ ∧
    (copy_photos ⟨[⟨"Apple iPhone", false⟩], [⟨"Internal Storage", true⟩],
        [⟨"Roll1", true⟩], fun _ => [], fun _ => [], fun _ => false⟩).completate.length +
      (copy_photos ⟨[⟨"Apple iPhone", false⟩], [⟨"Internal Storage", true⟩],
        [⟨"Roll1", true⟩], fun _ => [], fun _ => [], fun _ => false⟩).saltate.length +
      (copy_photos ⟨[⟨"Apple iPhone", false⟩], [⟨"Internal Storage", true⟩],
        [⟨"Roll1", true⟩], fun _ => [], fun _ => [], fun _ => false⟩).errori.length =
      (rollsOf ⟨[⟨"Apple iPhone", false⟩], [⟨"Internal Storage", true⟩],
        [⟨"Roll1", true⟩], fun _ => [], fun _ => [], fun _ => false⟩).length :=
  ⟨(copy_photos_startup_absence
      ⟨[], [], [], fun _ => [], fun _ => [], fun _ => false⟩).1 (Or.inl rfl),
   (copy_photos_startup_absence
      ⟨[⟨"Apple iPhone", false⟩], [⟨"Internal Storage", true⟩], [⟨"Roll1", true⟩],
        fun _ => [], fun _ => [], fun _ => false⟩).2
      (by intro h; exact Option.noConfusion h)
      (by intro h; exact Option.noConfusion h)⟩

end IPhoneCopier

